import Mathlib

/-!
Verification of the single-threaded cooperative executor / reactor of the
`libft-rs` runtime.

The development shallowly embeds the relevant Rust sources:

* `src/fd/poll.rs` — the `PollFd` descriptor-interest record, its `ready`
  predicate, and the timeout conversion performed by the `poll` wrapper.
* `src/runtime/task_waker.rs` — the reactor (`TaskWaker`): the parallel
  I/O-interest arrays, the timer heap of `Sleeper`s, and `wait_any`.
* `src/runtime/single_thread.rs` — the runtime driver (`run_until_idle`,
  `clear`).
* `src/runtime/tasks.rs` — the task arena: `TaskSlot`, `Tasks` and its
  operations.  The one method the file does not define is `Tasks::clear`
  (called by `single_thread.rs` line 163); that single definition is
  modelled from the specification and marked `Modelled from the spec:`.

Machine integers are embedded as `Nat`/`Int`; a `Duration` is its total
number of nanoseconds as a `Nat` (Rust `Duration` arithmetic on the values
occurring here is exact, and `saturating_sub` on `Nat` is Lean's truncated
subtraction).  Wakers are identified by an opaque `Nat` payload; invoking a
waker is recorded by appending that payload to an explicit list of delivered
wakes.  Fallible allocation is driven by explicit boolean oracles: the Rust
`try_reserve` calls either succeed or fail with `OutOfMemory`, and the
oracle decides which.
-/

/-- The `OutOfMemory` allocation-failure signal of `src/malloc.rs`. -/
inductive OutOfMemory : Type where
  | outOfMemory
deriving DecidableEq

/-- Embedding of `PollFd` (`src/fd/poll.rs`): a file descriptor, the event
mask being waited on, and the OS-reported outcome mask `revents`.  The
`c_short` bit masks are embedded as `Nat`; only emptiness (`= 0`) of
`revents` matters to the reactor. -/
structure PollFd where
  fd : Int
  events : Nat
  revents : Nat
deriving DecidableEq

/-- Embedding of `PollFd::ready` exactly as written in `src/fd/poll.rs`
lines 76-78: `self.revents().is_empty()`.  (Its own doc comment says the
descriptor is ready when `revents` is *non-zero*; the code tests the
opposite.  We embed the code.) -/
def PollFd.ready (p : PollFd) : Bool :=
  p.revents == 0

/-- The readiness test as documented by `PollFd::ready`'s own doc comment
and by the specification: the OS-reported outcome `revents` is non-empty.
Kept separate from `PollFd.ready` so the two can be compared. -/
def PollFd.readySpec (p : PollFd) : Bool :=
  p.revents != 0

/-- Embedding of `swap_remove_unchecked` (`src/runtime/task_waker.rs`
lines 156-172): the element at `index` is replaced by the last element and
the length shrinks by one.  (`set` at `index = len - 1` rewrites the last
element with itself, so `dropLast` after `set` matches both branches of the
source.)  On an empty list the source is undefined; the embedding returns
the list unchanged and callers guard the index themselves. -/
def swapRemoveList {α : Type} (l : List α) (index : Nat) : List α :=
  match l.getLast? with
  | none => l
  | some last => (l.set index last).dropLast

/-- Embedding of the timeout conversion performed by `poll`
(`src/fd/poll.rs` lines 92-94):
`timeout.and_then(|t| t.as_millis().try_into().ok()).unwrap_or(-1)`.
`as_millis` is whole milliseconds rounding down, and the `c_int`
conversion succeeds exactly when the millisecond count is at most
`c_int::MAX = 2147483647` (the count is non-negative). -/
def durationAsMillis (d : Nat) : Nat :=
  d / 1000000

/-- Upper bound of the C `int` type used by `poll`. -/
def cIntMax : Nat :=
  2147483647

/-- The `c_int` timeout handed to the OS by `poll`: `-1` (block forever)
when no timeout was requested or when the millisecond count overflows a
C `int`, the floored millisecond count otherwise. -/
def pollTimeout (timeout : Option Nat) : Int :=
  match timeout with
  | none => -1
  | some d => if durationAsMillis d ≤ cIntMax then (durationAsMillis d : Int) else -1

/-- Embedding of `Sleeper` (`src/runtime/task_waker.rs` lines 14-19):
a pending timer, pairing a deadline instant (nanoseconds of the monotonic
clock) with the wake handle to invoke. -/
structure Sleeper where
  waker : Nat
  instant : Nat
deriving DecidableEq

/-- Embedding of the timer-draining loop of `wait_any`
(`src/runtime/task_waker.rs` lines 121-129).  The `BinaryHeap<Sleeper>` is
embedded as the list of sleepers in pop order; `Sleeper`'s reversed `Ord`
(`other.instant.cmp(&self.instant)`, "earlier means larger") makes the
max-heap pop soonest-deadline first, so the pop-order list is sorted by
non-decreasing `instant` (stated as a hypothesis where needed).  The loop
peeks the head, and while `now >= sleeper.instant` pops it and invokes its
waker.  Returns the popped sleepers in pop order (their wakers are invoked
in exactly that order) and the surviving heap. -/
def processSleepers (now : Nat) : List Sleeper → List Sleeper × List Sleeper
  | [] => ([], [])
  | s :: rest =>
    if s.instant ≤ now then
      let p := processSleepers now rest
      (s :: p.1, p.2)
    else
      ([], s :: rest)

/-- Embedding of the I/O-scan loop of `wait_any`
(`src/runtime/task_waker.rs` lines 134-148), parametrised by the readiness
test so the code's `PollFd.ready` and the documented `PollFd.readySpec`
can be compared.  While `ready > 0`: if the entry at `index` passes the
test, swap-remove it from both parallel arrays, invoke its waker and
decrement `ready`; otherwise advance `index`.  The source loop accesses
`io[index]` without a bounds check (guarded only by a `debug_assert`);
the embedding returns `none` when that access would be out of bounds.
The recursion is structural on a `fuel` bound; since each iteration of the
source loop strictly decreases `ready + (io.length - index)`, the wrapper
`ioScan` below supplies fuel that can never run out before the loop
exits, so `none` arises exactly from the unchecked accesses. -/
def ioScanFuel (test : PollFd → Bool) :
    Nat → List PollFd → List Nat → Nat → Nat → List Nat →
    Option (List PollFd × List Nat × List Nat)
  | 0, _, _, _, _, _ => none
  | fuel + 1, io, wakers, index, ready, woken =>
    if ready = 0 then
      some (io, wakers, woken)
    else if h : index < io.length then
      if test io[index] then
        match wakers[index]? with
        | none => none
        | some w =>
            ioScanFuel test fuel (swapRemoveList io index)
              (swapRemoveList wakers index) index (ready - 1) (woken ++ [w])
      else
        ioScanFuel test fuel io wakers (index + 1) ready woken
    else
      none

/-- The I/O-scan loop of `wait_any` (see `ioScanFuel`): the fuel
`ready + (io.length - index) + 1` strictly exceeds the loop's decreasing
measure, so it never runs out before the source loop would exit. -/
def ioScan (test : PollFd → Bool) (io : List PollFd) (wakers : List Nat)
    (index ready : Nat) (woken : List Nat) :
    Option (List PollFd × List Nat × List Nat) :=
  ioScanFuel test (ready + (io.length - index) + 1) io wakers index ready woken

/-- Embedding of the reactor state `TaskWaker`
(`src/runtime/task_waker.rs` lines 46-53): the two parallel I/O-interest
arrays (fields `io` and `io_wakers` in the source) and the timer heap,
embedded as its pop-order list (see `processSleepers`). -/
structure TaskWaker where
  ioFds : List PollFd
  ioWakers : List Nat
  sleepers : List Sleeper
deriving DecidableEq

/-- Embedding of `TaskWaker::new` (`src/runtime/task_waker.rs`
lines 58-64): both arrays and the heap start empty. -/
def TaskWaker.new : TaskWaker :=
  { ioFds := [], ioWakers := [], sleepers := [] }

/-- Embedding of `TaskWaker::clear` (`src/runtime/task_waker.rs`
lines 67-71): `Vec::clear` / `BinaryHeap::clear` on each of the three
collections, which drop their elements.  No waker is invoked anywhere in
the source body, so the delivered-wake list of the embedding is empty. -/
def TaskWaker.clear (w : TaskWaker) : TaskWaker × List Nat :=
  ({ ioFds := [], ioWakers := [], sleepers := [] }, [])

/-- Embedding of `TaskWaker::wake_me_up_on_io`
(`src/runtime/task_waker.rs` lines 74-82): `try_reserve(1)` on each array
(the two boolean oracles decide whether each reservation succeeds; a
failed reservation leaves the vector untouched and the function returns
the error before anything is pushed), then push onto both arrays. -/
def TaskWaker.wakeMeUpOnIo (w : TaskWaker) (fd : PollFd) (waker : Nat)
    (alloc1 alloc2 : Bool) : Except OutOfMemory TaskWaker :=
  if !alloc1 then
    .error .outOfMemory
  else if !alloc2 then
    .error .outOfMemory
  else
    .ok { w with ioFds := w.ioFds ++ [fd], ioWakers := w.ioWakers ++ [waker] }

/-- Embedding of `TaskWaker::is_empty` (`src/runtime/task_waker.rs`
lines 95-97): `self.io.is_empty() && self.sleepers.is_empty()`. -/
def TaskWaker.isEmpty (w : TaskWaker) : Bool :=
  w.ioFds.isEmpty && w.sleepers.isEmpty

/-- The timeout computed at the top of `wait_any`
(`src/runtime/task_waker.rs` lines 112-115):
`self.sleepers.peek().map(|s| s.instant.saturating_sub(now))`.
`peek` of the heap is the head of the pop-order list, and
`Instant::saturating_sub` is truncated subtraction on `Nat`. -/
def TaskWaker.waitAnyTimeout (w : TaskWaker) (now : Nat) : Option Nat :=
  w.sleepers.head?.map (fun s => s.instant - now)

/-- Embedding of `TaskWaker::wait_any` (`src/runtime/task_waker.rs`
lines 108-151).  The OS and the clock are oracles: `now` is the clock
reading used for the timeout, `now2` the re-read after the OS wait, and
`osPoll` the OS-level multiplexed wait, given the interest array and the
converted `c_int` timeout and returning the array with `revents` filled in
together with the ready count.  The function then drains due sleepers and
runs the I/O scan with the code's `PollFd.ready` test; `none` models the
unchecked out-of-bounds access the scan can make.  Returns the new reactor
state and the delivered wakes (timer wakes first, as in the source). -/
def TaskWaker.waitAny (w : TaskWaker) (now now2 : Nat)
    (osPoll : List PollFd → Int → List PollFd × Nat) :
    Option (TaskWaker × List Nat) :=
  let timeout := pollTimeout (w.waitAnyTimeout now)
  let polled := osPoll w.ioFds timeout
  let sleepRes := processSleepers now2 w.sleepers
  match ioScan PollFd.ready polled.1 w.ioWakers 0 polled.2 [] with
  | none => none
  | some (io2, wakers2, ioWoken) =>
      some ({ ioFds := io2, ioWakers := wakers2, sleepers := sleepRes.2 },
        sleepRes.1.map Sleeper.waker ++ ioWoken)

/-- Embedding of `TaskSlot` (`src/runtime/tasks.rs` lines 9-30): a slot
of the task arena is Waiting (holds the suspended computation, a waker
having been dispatched for it), Ready (holds the computation and the
TaskId of the next slot in the Ready list), Running (the computation has
been taken by value while it executes), or Vacant (holds the TaskId of
the next free slot).  `TaskId` is `usize` (line 33), embedded as `Nat`;
the list links are plain TaskIds using the out-of-range `usize::MAX`
sentinel (`usizeMax`), not options. -/
inductive Slot (τ : Type) : Type where
  | waiting (task : τ)
  | ready (task : τ) (next : Nat)
  | running
  | vacant (next : Nat)
deriving DecidableEq

/-- The `usize::MAX` sentinel of the 64-bit target, stored in the arena's
list heads and links for "no more nodes"; it is never a valid index. -/
def usizeMax : Nat :=
  18446744073709551615

/-- Whether a slot is in the Ready state. -/
def Slot.isReady {τ : Type} : Slot τ → Bool
  | .ready _ _ => true
  | _ => false

/-- Whether a slot is in the Vacant state. -/
def Slot.isVacant {τ : Type} : Slot τ → Bool
  | .vacant _ => true
  | _ => false

/-- Embedding of the arena `Tasks` (`src/runtime/tasks.rs` lines 36-49):
the backing store of slots (field `tasks`), the free-list head and the
ready-list head (each `usize::MAX` when its list is empty), and the
live-task counter `len` maintained by `insert`/`put_back_nothing` and
reported by `Tasks::len` (lines 63-66), which is the field itself. -/
structure Tasks (τ : Type) : Type where
  tasks : List (Slot τ)
  freeListHead : Nat
  readyListHead : Nat
  len : Nat
deriving DecidableEq

/-- Embedding of `Tasks::new` (`src/runtime/tasks.rs` lines 53-60): an
empty store with both list heads at the `usize::MAX` sentinel. -/
def Tasks.new {τ : Type} : Tasks τ :=
  { tasks := [], freeListHead := usizeMax, readyListHead := usizeMax,
    len := 0 }

/-- Embedding of `Tasks::insert` (`src/runtime/tasks.rs` lines 69-99).
The new slot `Ready { task, next: ready_list_head }` is built first.  If
`tasks.get_mut(free_list_head)` is in range (the `usize::MAX` sentinel of
an empty free list never is), the new slot replaces the Vacant slot
there: that index becomes the ready-list head and the Vacant slot's
`next` becomes the free-list head.  A slot there that is not Vacant is
declared unreachable by the source (`debug_assert` plus
`unreachable_unchecked`); the embedding returns `none` for that undefined
behavior.  With the free-list head out of range the store instead grows
by one slot via `try_push`, whose `try_reserve` can fail with
`OutOfMemory` (the `canAlloc` oracle decides): on failure the error is
returned, the computation (moved into the function) is dropped and the
arena is untouched; on success the new index becomes the ready-list head.
The live counter increments in both success cases.  The source returns
`Result<(), OutOfMemory>`; the embedding returns the updated arena in the
`ok` case. -/
def Tasks.insert {τ : Type} (t : Tasks τ) (c : τ) (canAlloc : Bool) :
    Option (Except OutOfMemory (Tasks τ)) :=
  match t.tasks[t.freeListHead]? with
  | some (.vacant next) =>
      some (.ok
        { tasks := t.tasks.set t.freeListHead (.ready c t.readyListHead),
          freeListHead := next, readyListHead := t.freeListHead,
          len := t.len + 1 })
  | some _ => none
  | none =>
      if canAlloc then
        some (.ok
          { tasks := t.tasks ++ [.ready c t.readyListHead],
            freeListHead := t.freeListHead,
            readyListHead := t.tasks.length, len := t.len + 1 })
      else
        some (.error .outOfMemory)

/-- Embedding of `Tasks::take_any_ready_task` (`src/runtime/tasks.rs`
lines 102-115): reads the slot at `ready_list_head` — out of range (the
empty-list `usize::MAX` sentinel included) makes `get_mut(id)?` return
`None` — replaces it with Running, advances the ready-list head to the
slot's `next` link and returns the TaskId with the computation by value.
A head in range whose slot is not Ready is declared unreachable by the
source (`debug_assert` plus `unreachable_unchecked`); the embedding
returns `none` there as well, so on arenas satisfying the ready-list
invariant `none` coincides with the source's `None`. -/
def Tasks.takeAnyReadyTask {τ : Type} (t : Tasks τ) :
    Option (Nat × τ × Tasks τ) :=
  match t.tasks[t.readyListHead]? with
  | some (.ready c next) =>
      some (t.readyListHead, c,
        { t with tasks := t.tasks.set t.readyListHead .running,
                 readyListHead := next })
  | _ => none

/-- Embedding of `Tasks::put_back_waiting` (`src/runtime/tasks.rs`
lines 122-129): an `unsafe fn` whose safety contract requires the slot at
`id` to be currently Running; under the contract it writes
`Waiting(task)` into that slot (the forced pointer write, dropping
nothing, since a Running slot holds no value).  A call violating the
contract — index out of range for the unchecked access, or a slot that is
not Running — is undefined behavior; the embedding models such calls as
leaving the arena unchanged, and every theorem below relies only on the
in-contract case. -/
def Tasks.putBackWaiting {τ : Type} (t : Tasks τ) (id : Nat) (c : τ) :
    Tasks τ :=
  match t.tasks[id]? with
  | some .running => { t with tasks := t.tasks.set id (.waiting c) }
  | _ => t

/-- Embedding of `Tasks::put_back_nothing` (`src/runtime/tasks.rs`
lines 138-152): an `unsafe fn` with the same Running-slot contract; under
it, the slot becomes `Vacant { next: free_list_head }`, the free-list
head becomes `id`, and the live counter decrements.  Out-of-contract
calls are undefined behavior, modelled as leaving the arena unchanged. -/
def Tasks.putBackNothing {τ : Type} (t : Tasks τ) (id : Nat) : Tasks τ :=
  match t.tasks[id]? with
  | some .running =>
      { tasks := t.tasks.set id (.vacant t.freeListHead),
        freeListHead := id, readyListHead := t.readyListHead,
        len := t.len - 1 }
  | _ => t

/-- Embedding of `Tasks::mark_ready` (`src/runtime/tasks.rs`
lines 161-188): if slot `id` is out of range or not Waiting, returns
`false` with the arena untouched; otherwise writes
`Ready { task, next: ready_list_head }` into the slot (the source's
transient replace-with-Running is not observable), makes `id` the
ready-list head and returns `true`. -/
def Tasks.markReady {τ : Type} (t : Tasks τ) (id : Nat) : Bool × Tasks τ :=
  match t.tasks[id]? with
  | some (.waiting c) =>
      (true,
        { t with
          tasks := t.tasks.set id (.ready c t.readyListHead)
          readyListHead := id })
  | _ => (false, t)

/-- Modelled from the spec: `Tasks::clear` is invoked by the runtime
`clear` (`src/runtime/single_thread.rs` line 163) but `tasks.rs` defines
no such method; per the specification (`clear` resets the runtime,
removing all tasks and leaving the arena length `0`) it resets the arena
to its `new` state, dropping every slot. -/
def Tasks.clear {τ : Type} (t : Tasks τ) : Tasks τ :=
  { tasks := [], freeListHead := usizeMax, readyListHead := usizeMax,
    len := 0 }

/-- The number of Ready slots of an arena (used to bound the driver
loop). -/
def Tasks.countReady {τ : Type} (t : Tasks τ) : Nat :=
  t.tasks.countP Slot.isReady

/-- The result of resuming a computation once through the standard poll
interface: either `Poll::Pending` together with the computation's new
suspended state, or `Poll::Ready(())`. -/
inductive PollRes (τ : Type) : Type where
  | pending (c : τ)
  | ready
deriving DecidableEq

/-- Events recorded by the embedding of `run_until_idle`: the single
blocking `wait_any` call, and per-task events of the ready loop — the task
was resumed, then put back Waiting (`Poll::Pending`) or made Vacant
(`Poll::Ready`). -/
inductive Event : Type where
  | waitAnyCall
  | resumed (id : Nat)
  | putWaiting (id : Nat)
  | putVacant (id : Nat)
deriving DecidableEq

/-- Whether an event is the blocking `wait_any` call (used to count the
blocking points of one `run_until_idle` invocation). -/
def Event.isWait : Event → Bool
  | .waitAnyCall => true
  | _ => false

/-- Embedding of the ready-task loop of `run_until_idle`
(`src/runtime/single_thread.rs` lines 127-140): pop a Ready task; if none
remains, stop; otherwise resume its computation once (the pure oracle
`pollFn`, given the TaskId and computation, stands for
`task.as_mut().poll(&mut ctx)` with the waker built from the TaskId), then
`put_back_waiting` on `Poll::Pending` and `put_back_nothing` on
`Poll::Ready`.  The `fuel` bounds the recursion; `Tasks.countReady` of the
entering arena is enough fuel for the loop to reach the empty-Ready-list
exit (proved below). -/
def runLoop {τ : Type} (pollFn : Nat → τ → PollRes τ) :
    Nat → Tasks τ → List Event → Tasks τ × List Event
  | 0, t, evs => (t, evs)
  | fuel + 1, t, evs =>
    match t.takeAnyReadyTask with
    | none => (t, evs)
    | some (id, c, t2) =>
      match pollFn id c with
      | .pending c2 =>
          runLoop pollFn fuel (t2.putBackWaiting id c2)
            (evs ++ [.resumed id, .putWaiting id])
      | .ready =>
          runLoop pollFn fuel (t2.putBackNothing id)
            (evs ++ [.resumed id, .putVacant id])

/-- Embedding of `run_until_idle` (`src/runtime/single_thread.rs`
lines 116-143).  If the reactor is non-empty, `wait_any` is called once
before the loop; its observable effect on the arena is that the wakers it
invokes call `wake_up_manual` (`src/runtime/waker.rs` lines 23-29,
`src/runtime/single_thread.rs` lines 172-174), i.e. `mark_ready`, so it
is abstracted as the list `wakeIds` of TaskIds woken during that single
call (`mark_ready` applied in order).  Then the ready loop runs, and the
arena's remaining live-task count is returned together with the final
arena and the event trace.  `runUntilIdleEntry` is the arena as the ready
loop first sees it: unchanged when the reactor is empty (no `wait_any`
call), otherwise with the single call's wakes applied. -/
def runUntilIdleEntry {τ : Type} (t : Tasks τ) (w : TaskWaker)
    (wakeIds : List Nat) : Tasks τ :=
  if w.isEmpty then t
  else wakeIds.foldl (fun s i => (s.markReady i).2) t

/-- Embedding of `run_until_idle` (`src/runtime/single_thread.rs`
lines 116-143), continued: after the gated `wait_any`, the ready loop runs
on the entry arena, and the arena's remaining live-task count is returned
together with the final arena and the event trace (a `waitAnyCall` event
is recorded exactly when the reactor was non-empty). -/
def runUntilIdle {τ : Type} (pollFn : Nat → τ → PollRes τ) (fuel : Nat)
    (t : Tasks τ) (w : TaskWaker) (wakeIds : List Nat) :
    Nat × Tasks τ × List Event :=
  let entryEvs : List Event := if w.isEmpty then [] else [Event.waitAnyCall]
  let final := runLoop pollFn fuel (runUntilIdleEntry t w wakeIds) entryEvs
  (final.1.len, final.1, final.2)

/-- Embedding of the runtime `clear` (`src/runtime/single_thread.rs`
lines 161-166): `TASKS.clear()` then `WAKER.clear()`.  Returns the new
arena and reactor together with the wakes delivered while clearing (the
reactor's `clear` invokes none). -/
def runtimeClear {τ : Type} (t : Tasks τ) (w : TaskWaker) :
    Tasks τ × TaskWaker × List Nat :=
  let w2 := w.clear
  (t.clear, w2.1, w2.2)

/-- The arena operations the runtime driver and the waker bridge perform,
used to state the no-spurious-scheduling property: spawning
(`insert`, with its allocation oracle), popping a ready task, putting the
running task back Waiting or Vacant, and `mark_ready` (the bridge's wake
path, `wake_up_manual`). -/
inductive DriverOp (τ : Type) : Type where
  | insertOp (c : τ) (canAlloc : Bool)
  | takeOp
  | putWaitingOp (id : Nat) (c : τ)
  | putNothingOp (id : Nat)
  | markReadyOp (id : Nat)

/-- One driver step: the state transformation each `DriverOp` performs on
the arena; results other than the new arena state are discarded, and an
operation whose source behavior is undefined (`insert` with a corrupt
free-list head, or a put-back violating its Running-slot contract) leaves
the arena unchanged, so the temporal property below is stated over every
operation sequence. -/
def driverStep {τ : Type} (t : Tasks τ) : DriverOp τ → Tasks τ
  | .insertOp c canAlloc =>
    match t.insert c canAlloc with
    | some (.ok t2) => t2
    | _ => t
  | .takeOp =>
    match t.takeAnyReadyTask with
    | none => t
    | some r => r.2.2
  | .putWaitingOp id c => t.putBackWaiting id c
  | .putNothingOp id => t.putBackNothing id
  | .markReadyOp id => (t.markReady id).2

/-- Running a sequence of driver operations from an arena state. -/
def driverRun {τ : Type} (t : Tasks τ) (ops : List (DriverOp τ)) : Tasks τ :=
  ops.foldl driverStep t

/-- Whether a driver operation is `mark_ready` on the given TaskId. -/
def DriverOp.isMarkReadyOn {τ : Type} (id : Nat) : DriverOp τ → Bool
  | .markReadyOp j => j == id
  | _ => false

/-! ## Helper lemmas -/

theorem swapRemoveList_length {α : Type} (l : List α) (i : Nat)
    (hi : i < l.length) : (swapRemoveList l i).length = l.length - 1 := by
  unfold swapRemoveList
  cases hl : l.getLast? with
  | none =>
    rw [List.getLast?_eq_none_iff] at hl
    subst hl
    simp at hi
  | some a => simp

theorem processSleepers_eq (now : Nat) :
    ∀ l : List Sleeper, l.Pairwise (fun a b => a.instant ≤ b.instant) →
      (processSleepers now l).1 = l.filter (fun s => s.instant ≤ now) ∧
      (processSleepers now l).2 = l.filter (fun s => now < s.instant)
  | [], _ => by simp [processSleepers]
  | s :: rest, hs => by
    rw [List.pairwise_cons] at hs
    obtain ⟨hhd, hrest⟩ := hs
    obtain ⟨ih1, ih2⟩ := processSleepers_eq now rest hrest
    by_cases hdue : s.instant ≤ now
    · constructor
      · simp [processSleepers, hdue, ih1]
      · simp [processSleepers, hdue, ih2, Nat.not_lt.mpr hdue]
    · have hall : ∀ b ∈ rest, ¬ b.instant ≤ now := fun b hb hle =>
        hdue (Nat.le_trans (hhd b hb) hle)
      constructor
      · have hnil : (s :: rest).filter (fun x => decide (x.instant ≤ now))
            = [] := by
          rw [List.filter_eq_nil_iff]
          intro a ha
          rcases List.mem_cons.mp ha with rfl | hmem
          · simpa using hdue
          · simpa using hall a hmem
        simp only [processSleepers, if_neg hdue]
        exact hnil.symm
      · have hself : (s :: rest).filter (fun x => decide (now < x.instant))
            = s :: rest := by
          rw [List.filter_eq_self]
          intro a ha
          rcases List.mem_cons.mp ha with rfl | hmem
          · simpa using Nat.not_le.mp hdue
          · simpa using Nat.not_le.mp (hall a hmem)
        simp only [processSleepers, if_neg hdue]
        exact hself.symm

/-! ## The claims -/

/-- C1: the claim says the entries whose OS-reported `revents` is
non-empty are the ones removed from both arrays and woken, while entries
with empty `revents` remain registered.  The code does the opposite:
`PollFd::ready` tests `revents().is_empty()` (contradicting its own doc
comment, which says ready means a *non-zero* `revents`), so on the
interest set `[⟨fd 3, revents 0⟩, ⟨fd 4, revents 1⟩]` with waker payloads
`[10, 11]` and OS ready count `1`, the scan removes and wakes the
*empty*-`revents` entry (waker `10`) and leaves the genuinely ready
descriptor registered; under the documented test `readySpec` the same scan
produces exactly the claimed outcome (waker `11`, entry `fd 4` removed);
and on an interest set containing only the genuinely ready descriptor the
code's scan runs past the end of the array (`none`: the unchecked access
its own `debug_assert` guards against). -/
theorem c1_ioScan_wakes_wrong_entries :
    PollFd.ready ⟨3, 1, 0⟩ = true ∧
    PollFd.ready ⟨4, 1, 1⟩ = false ∧
    ioScan PollFd.ready [⟨3, 1, 0⟩, ⟨4, 1, 1⟩] [10, 11] 0 1 []
      = some ([⟨4, 1, 1⟩], [11], [10]) ∧
    ioScan PollFd.readySpec [⟨3, 1, 0⟩, ⟨4, 1, 1⟩] [10, 11] 0 1 []
      = some ([⟨3, 1, 0⟩], [10], [11]) ∧
    ioScan PollFd.ready [⟨4, 1, 1⟩] [11] 0 1 [] = none := by
  decide

/-- C7: `clear()` resets the whole runtime — the arena is emptied (length
`0`, no slots), the reactor's two I/O-interest arrays and its timer heap
are emptied, and no wake handle is invoked (the delivered-wake list of the
clearing is empty). -/
theorem c7_clear_resets {τ : Type} (t : Tasks τ) (w : TaskWaker) :
    (runtimeClear t w).1.len = 0 ∧
    (runtimeClear t w).1.tasks = [] ∧
    (runtimeClear t w).2.1.ioFds = [] ∧
    (runtimeClear t w).2.1.ioWakers = [] ∧
    (runtimeClear t w).2.1.sleepers = [] ∧
    (runtimeClear t w).2.2 = [] :=
  ⟨rfl, rfl, rfl, rfl, rfl, rfl⟩

/-- C10: the timeout `wait_any` computes for the soonest sleeper is
converted by the `poll` wrapper to whole milliseconds rounding down; a
millisecond count that does not fit in a C `int` becomes the infinite
timeout `-1`; a deadline less than one millisecond away yields the zero
timeout; a deadline more than `c_int::MAX` milliseconds away yields `-1`
(block with no timeout). -/
theorem c10_wait_timeout_conversion (w : TaskWaker) (now : Nat) (s : Sleeper)
    (h : w.sleepers.head? = some s) :
    w.waitAnyTimeout now = some (s.instant - now) ∧
    pollTimeout (w.waitAnyTimeout now) =
      (if durationAsMillis (s.instant - now) ≤ cIntMax
       then (durationAsMillis (s.instant - now) : Int) else -1) ∧
    (s.instant < now + 1000000 → pollTimeout (w.waitAnyTimeout now) = 0) ∧
    (cIntMax < durationAsMillis (s.instant - now) →
      pollTimeout (w.waitAnyTimeout now) = -1) ∧
    durationAsMillis (s.instant - now) = (s.instant - now) / 1000000 := by
  have ht : w.waitAnyTimeout now = some (s.instant - now) := by
    simp [TaskWaker.waitAnyTimeout, h]
  refine ⟨ht, by rw [ht]; rfl, ?_, ?_, rfl⟩
  · intro hlt
    have hz : durationAsMillis (s.instant - now) = 0 := by
      unfold durationAsMillis
      omega
    rw [ht]
    simp [pollTimeout, hz, cIntMax]
  · intro hgt
    rw [ht]
    simp only [pollTimeout]
    rw [if_neg (by omega)]

/-- Witness for C10 at a sleeper half a millisecond away from `now = 0`:
the OS wait is given the zero timeout. -/
theorem c10_wait_timeout_conversion_witness :
    pollTimeout ((TaskWaker.mk [] [] [⟨0, 500000⟩]).waitAnyTimeout 0) = 0 := by
  have h := c10_wait_timeout_conversion ⟨[], [], [⟨0, 500000⟩]⟩ 0 ⟨0, 500000⟩ rfl
  exact h.2.2.1 (by decide)

/-- C3: `mark_ready(id)` returns `true` and moves the slot to Ready —
prepending it as the new Ready-list head, holding the same computation,
with every other field unchanged — exactly when slot `id` exists and is
Waiting; in every other case (out of range, or the slot Ready, Running or
Vacant) it returns `false` and the entire arena, including the Ready and
Free lists, is unchanged. -/
theorem c3_markReady_iff_waiting {τ : Type} (t : Tasks τ) (i : Nat) :
    (∀ c, t.tasks[i]? = some (.waiting c) →
      t.markReady i =
        (true, ⟨t.tasks.set i (.ready c t.readyListHead), t.freeListHead,
                i, t.len⟩)) ∧
    ((∀ c, t.tasks[i]? ≠ some (.waiting c)) → t.markReady i = (false, t)) := by
  constructor
  · intro c hc
    simp [Tasks.markReady, hc]
  · intro hnc
    unfold Tasks.markReady
    cases hs : t.tasks[i]? with
    | none => rfl
    | some sl =>
      cases sl with
      | waiting c => exact absurd hs (hnc c)
      | ready c nxt => rfl
      | running => rfl
      | vacant nxt => rfl

/-- Witness for C3: a one-slot arena — `mark_ready 0` succeeds on a
Waiting slot and prepends it as the Ready head; on a Running slot it
returns `false` leaving the arena unchanged. -/
theorem c3_markReady_iff_waiting_witness :
    (Tasks.mk [Slot.waiting 5] usizeMax usizeMax 1 : Tasks Nat).markReady 0
      = (true, ⟨[Slot.ready 5 usizeMax], usizeMax, 0, 1⟩) ∧
    (Tasks.mk [Slot.running] usizeMax usizeMax 1 : Tasks Nat).markReady 0
      = (false, ⟨[Slot.running], usizeMax, usizeMax, 1⟩) := by
  constructor
  · rw [(c3_markReady_iff_waiting
      (Tasks.mk [Slot.waiting 5] usizeMax usizeMax 1) 0).1 5 rfl]
    rfl
  · rw [(c3_markReady_iff_waiting
      (Tasks.mk [Slot.running] usizeMax usizeMax 1) 0).2
      (fun c hc => by simp at hc)]

/-- C2: `insert` reuses the free-list head when the free list is
non-empty (its head is then an in-range Vacant slot) — the backing store
does not grow — and otherwise grows the backing store by exactly one
slot; in either success case the filled slot becomes the new Ready-list
head and the live count increases by one; on allocation failure the
out-of-memory error is returned (the computation, moved into the call,
is thereby dropped) and the arena is unchanged. -/
theorem c2_insert_cases {τ : Type} (t : Tasks τ) (c : τ) :
    (∀ nxt, t.tasks[t.freeListHead]? = some (.vacant nxt) →
      ∀ canAlloc,
        t.insert c canAlloc =
          some (.ok ⟨t.tasks.set t.freeListHead (.ready c t.readyListHead),
                     nxt, t.freeListHead, t.len + 1⟩) ∧
        (t.tasks.set t.freeListHead (.ready c t.readyListHead)).length
          = t.tasks.length) ∧
    (t.tasks[t.freeListHead]? = none →
      t.insert c true =
        some (.ok ⟨t.tasks ++ [Slot.ready c t.readyListHead],
                   t.freeListHead, t.tasks.length, t.len + 1⟩) ∧
      (t.tasks ++ [Slot.ready c t.readyListHead]).length
        = t.tasks.length + 1) ∧
    (t.tasks[t.freeListHead]? = none →
      t.insert c false = some (.error .outOfMemory) ∧
      driverStep t (.insertOp c false) = t) := by
  refine ⟨?_, ?_, ?_⟩
  · intro nxt hv canAlloc
    exact ⟨by simp [Tasks.insert, hv], by simp⟩
  · intro hv
    exact ⟨by simp [Tasks.insert, hv], by simp⟩
  · intro hv
    exact ⟨by simp [Tasks.insert, hv], by simp [driverStep, Tasks.insert, hv]⟩

/-- Witness for C2: the three concrete cases — reuse of a Vacant slot
with allocation forbidden, growth by one slot, and allocation failure on
an empty free list (head at the `usize::MAX` sentinel). -/
theorem c2_insert_cases_witness :
    (Tasks.mk [Slot.vacant usizeMax] 0 usizeMax 0 : Tasks Nat).insert 7 false
      = some (.ok ⟨[Slot.ready 7 usizeMax], usizeMax, 0, 1⟩) ∧
    (Tasks.mk [] usizeMax usizeMax 0 : Tasks Nat).insert 7 true
      = some (.ok ⟨[Slot.ready 7 usizeMax], usizeMax, 0, 1⟩) ∧
    (Tasks.mk [] usizeMax usizeMax 0 : Tasks Nat).insert 7 false
      = some (.error .outOfMemory) := by
  refine ⟨?_, ?_, ?_⟩
  · rw [((c2_insert_cases (Tasks.mk [Slot.vacant usizeMax] 0 usizeMax 0) 7).1
      usizeMax rfl false).1]
    rfl
  · rw [((c2_insert_cases (Tasks.mk [] usizeMax usizeMax 0) 7).2.1 rfl).1]
    rfl
  · rw [((c2_insert_cases (Tasks.mk [] usizeMax usizeMax 0) 7).2.2 rfl).1]

/-- C9: both arena lists are LIFO stacks addressed by TaskId — a
successful `insert` or `mark_ready` makes that slot the new Ready-list
head and the next `take_any_ready_task` returns exactly that slot with
exactly the computation it holds; `put_back_nothing` makes the freed slot
the new free-list head and the next non-growing `insert` reuses exactly
that slot. -/
theorem c9_lifo_stacks {τ : Type} (t : Tasks τ) (c : τ) (canAlloc : Bool)
    (i : Nat) :
    (∀ nxt, t.tasks[t.freeListHead]? = some (.vacant nxt) →
      ∀ t2, t.insert c canAlloc = some (.ok t2) →
        t2.readyListHead = t.freeListHead ∧
        (t2.takeAnyReadyTask.map fun r => (r.1, r.2.1))
          = some (t.freeListHead, c)) ∧
    (t.tasks[t.freeListHead]? = none →
      ∀ t2, t.insert c true = some (.ok t2) →
        t2.readyListHead = t.tasks.length ∧
        (t2.takeAnyReadyTask.map fun r => (r.1, r.2.1))
          = some (t.tasks.length, c)) ∧
    (∀ c0, t.tasks[i]? = some (.waiting c0) →
      (((t.markReady i).2.takeAnyReadyTask).map fun r => (r.1, r.2.1))
        = some (i, c0)) ∧
    (t.tasks[i]? = some .running →
      (t.putBackNothing i).freeListHead = i ∧
      ∀ c1 a, ∃ t3, (t.putBackNothing i).insert c1 a = some (.ok t3) ∧
        t3.tasks.length = t.tasks.length ∧ t3.readyListHead = i) := by
  refine ⟨?_, ?_, ?_, ?_⟩
  · intro nxt hv t2 hins
    obtain ⟨hj, -⟩ := List.getElem?_eq_some_iff.mp hv
    have hcomp : t.insert c canAlloc = some (.ok
        ⟨t.tasks.set t.freeListHead (.ready c t.readyListHead), nxt,
         t.freeListHead, t.len + 1⟩) := by
      simp [Tasks.insert, hv]
    rw [hcomp] at hins
    simp only [Option.some.injEq, Except.ok.injEq] at hins
    subst hins
    exact ⟨rfl, by simp [Tasks.takeAnyReadyTask, hj]⟩
  · intro hv t2 hins
    have hcomp : t.insert c true = some (.ok
        ⟨t.tasks ++ [Slot.ready c t.readyListHead], t.freeListHead,
         t.tasks.length, t.len + 1⟩) := by
      simp [Tasks.insert, hv]
    rw [hcomp] at hins
    simp only [Option.some.injEq, Except.ok.injEq] at hins
    subst hins
    refine ⟨rfl, ?_⟩
    simp [Tasks.takeAnyReadyTask,
      List.getElem?_append_right (Nat.le_refl _)]
  · intro c0 hv
    obtain ⟨hi, -⟩ := List.getElem?_eq_some_iff.mp hv
    simp [Tasks.markReady, hv, Tasks.takeAnyReadyTask, hi]
  · intro hrun
    obtain ⟨hi, -⟩ := List.getElem?_eq_some_iff.mp hrun
    have hpb : t.putBackNothing i =
        ⟨t.tasks.set i (.vacant t.freeListHead), i, t.readyListHead,
         t.len - 1⟩ := by
      simp [Tasks.putBackNothing, hrun]
    refine ⟨by rw [hpb], ?_⟩
    intro c1 a
    refine ⟨⟨(t.tasks.set i (.vacant t.freeListHead)).set i
        (.ready c1 t.readyListHead), t.freeListHead, i, t.len - 1 + 1⟩,
      ?_, by simp, rfl⟩
    rw [hpb]
    simp [Tasks.insert, hi]

/-- Witness for C9 on one-slot arenas: `insert` into a Vacant slot makes
it the Ready head, returned by the next take with its computation;
`mark_ready` on a Waiting slot likewise; `put_back_nothing` on a Running
slot makes it the free-list head. -/
theorem c9_lifo_stacks_witness :
    ((Tasks.mk [Slot.ready 7 usizeMax] usizeMax 0 1
        : Tasks Nat).takeAnyReadyTask.map fun q => (q.1, q.2.1))
      = some (0, 7) ∧
    ((Tasks.mk [Slot.waiting 9] usizeMax usizeMax 1 : Tasks Nat).markReady
        0).2.takeAnyReadyTask.map (fun q => (q.1, q.2.1)) = some (0, 9) ∧
    ((Tasks.mk [Slot.running] usizeMax usizeMax 1 : Tasks Nat).putBackNothing
        0).freeListHead = 0 := by
  have h := c9_lifo_stacks (Tasks.mk [Slot.vacant usizeMax] 0 usizeMax 0
    : Tasks Nat) 7 false 0
  have h2 := c9_lifo_stacks (Tasks.mk [Slot.waiting 9] usizeMax usizeMax 1
    : Tasks Nat) 9 false 0
  have h3 := c9_lifo_stacks (Tasks.mk [Slot.running] usizeMax usizeMax 1
    : Tasks Nat) 9 false 0
  refine ⟨?_, h2.2.2.1 9 rfl, (h3.2.2.2 rfl).1⟩
  have he : (Tasks.mk [Slot.vacant usizeMax] 0 usizeMax 0
      : Tasks Nat).insert 7 false
      = some (.ok ⟨[Slot.ready 7 usizeMax], usizeMax, 0, 1⟩) := rfl
  exact (h.1 usizeMax rfl ⟨[Slot.ready 7 usizeMax], usizeMax, 0, 1⟩ he).2

/-- C5: after re-reading the clock, `wait_any` pops and wakes exactly the
timers whose deadline has been reached (`instant ≤ now`), in
increasing-deadline order, and stops at the first not-yet-due timer: the
surviving heap is exactly the not-yet-due timers, every one of them with a
deadline still in the future.  The hypothesis is the heap invariant: the
pop-order list is sorted by non-decreasing deadline (guaranteed by
`Sleeper`'s reversed `Ord`). -/
theorem c5_due_timers_popped_in_order (now : Nat) (l : List Sleeper)
    (hs : l.Pairwise (fun a b => a.instant ≤ b.instant)) :
    (processSleepers now l).1 = l.filter (fun s => s.instant ≤ now) ∧
    (processSleepers now l).2 = l.filter (fun s => now < s.instant) ∧
    ((processSleepers now l).1.map Sleeper.instant).Pairwise (· ≤ ·) ∧
    ∀ s ∈ (processSleepers now l).2, now < s.instant := by
  obtain ⟨h1, h2⟩ := processSleepers_eq now l hs
  refine ⟨h1, h2, ?_, ?_⟩
  · rw [h1, List.pairwise_map]
    exact hs.filter _
  · intro s hsmem
    rw [h2] at hsmem
    simpa using List.of_mem_filter hsmem

/-- Witness for C5 on the sorted two-timer heap `[⟨waker 1, t 10⟩,
⟨waker 2, t 30⟩]` at `now = 20`: the due timer is popped and the
not-yet-due one survives. -/
theorem c5_due_timers_popped_in_order_witness :
    (processSleepers 20 [⟨1, 10⟩, ⟨2, 30⟩]).1 = [⟨1, 10⟩] ∧
    (processSleepers 20 [⟨1, 10⟩, ⟨2, 30⟩]).2 = [⟨2, 30⟩] := by
  have h := c5_due_timers_popped_in_order 20 [⟨1, 10⟩, ⟨2, 30⟩]
    (by simp [List.pairwise_cons])
  refine ⟨?_, ?_⟩
  · rw [h.1]
    rfl
  · rw [h.2.1]
    rfl

/-- Helper for C8: the I/O scan removes one element from each parallel
array per wake, so if the arrays enter with equal lengths, any completed
scan leaves them with equal lengths. -/
theorem ioScanFuel_length_eq (test : PollFd → Bool) (fuel : Nat) :
    ∀ (io : List PollFd) (wakers : List Nat) (index ready : Nat)
      (woken : List Nat) (io2 : List PollFd) (wk2 wo : List Nat),
      io.length = wakers.length →
      ioScanFuel test fuel io wakers index ready woken =
        some (io2, wk2, wo) →
      io2.length = wk2.length := by
  induction fuel with
  | zero =>
    intro io wakers index ready woken io2 wk2 wo hlen hscan
    simp [ioScanFuel] at hscan
  | succ fuel ih =>
    intro io wakers index ready woken io2 wk2 wo hlen hscan
    simp only [ioScanFuel] at hscan
    split at hscan
    · obtain ⟨rfl, rfl, rfl⟩ : io = io2 ∧ wakers = wk2 ∧ woken = wo := by
        simpa using hscan
      exact hlen
    · split at hscan
      next hidx =>
        split at hscan
        · split at hscan
          next hw => simp at hscan
          next w hw =>
            have hlen2 : (swapRemoveList io index).length =
                (swapRemoveList wakers index).length := by
              rw [swapRemoveList_length io index hidx,
                swapRemoveList_length wakers index (by omega)]
              omega
            exact ih _ _ _ _ _ _ _ _ hlen2 hscan
        · exact ih _ _ _ _ _ _ _ _ hlen hscan
      next hidx => simp at hscan

/-- C8: the two parallel reactor arrays have equal length after every
operation — after `new`, after `clear`, after every `wake_me_up_on_io`
(its two reservations precede both pushes, so a failure leaves the state
untouched and a success pushes onto both), and after every completed
`wait_any` (whose scan removes one element from each array per wake),
provided the OS wait itself only fills in `revents` (it returns the
interest array at its own length). -/
theorem c8_parallel_arrays_aligned (w : TaskWaker) (fd : PollFd) (k : Nat)
    (a1 a2 : Bool) (now now2 : Nat)
    (osPoll : List PollFd → Int → List PollFd × Nat)
    (hlen : w.ioFds.length = w.ioWakers.length)
    (hos : ∀ fds tmo, (osPoll fds tmo).1.length = fds.length) :
    TaskWaker.new.ioFds.length = TaskWaker.new.ioWakers.length ∧
    (w.clear).1.ioFds.length = (w.clear).1.ioWakers.length ∧
    (∀ w2, w.wakeMeUpOnIo fd k a1 a2 = .ok w2 →
      w2.ioFds.length = w2.ioWakers.length) ∧
    (∀ w2 woken, w.waitAny now now2 osPoll = some (w2, woken) →
      w2.ioFds.length = w2.ioWakers.length) := by
  refine ⟨rfl, rfl, ?_, ?_⟩
  · intro w2 hok
    unfold TaskWaker.wakeMeUpOnIo at hok
    cases a1 with
    | false => simp at hok
    | true =>
      cases a2 with
      | false => simp at hok
      | true =>
        simp only [Bool.not_true, Bool.false_eq_true, if_false,
          Except.ok.injEq] at hok
        subst hok
        simp [hlen]
  · intro w2 woken hw
    simp only [TaskWaker.waitAny] at hw
    split at hw
    · simp at hw
    next io2 wakers2 ioWoken hscan =>
      simp only [Option.some.injEq, Prod.mk.injEq] at hw
      obtain ⟨hw2, -⟩ := hw
      subst hw2
      simp only [ioScan] at hscan
      have hlen0 : (osPoll w.ioFds
          (pollTimeout (w.waitAnyTimeout now))).1.length
          = w.ioWakers.length := by
        rw [hos]
        exact hlen
      simpa using ioScanFuel_length_eq PollFd.ready _ _ _ _ _ _ _ _ _
        hlen0 hscan

/-- Witness for C8: a reactor with one interest entry and one waker, an
OS wait that reports nothing ready — after `wait_any` the two arrays still
have equal length. -/
theorem c8_parallel_arrays_aligned_witness :
    (TaskWaker.mk [⟨3, 1, 0⟩] [10] []).ioFds.length
      = (TaskWaker.mk [⟨3, 1, 0⟩] [10] []).ioWakers.length := by
  have h := c8_parallel_arrays_aligned (TaskWaker.mk [⟨3, 1, 0⟩] [10] [])
    ⟨5, 1, 0⟩ 20 true true 0 0 (fun fds _ => (fds, 0)) rfl
    (fun _ _ => rfl)
  exact h.2.2.2 (TaskWaker.mk [⟨3, 1, 0⟩] [10] []) [] rfl

/-- Helper for C4 and C6: replacing the element at an in-range index
changes `countP` by the difference of the predicate on the old and new
elements. -/
theorem countP_set_eq {α : Type} (p : α → Bool) :
    ∀ (l : List α) (i : Nat) (a b : α), l[i]? = some a →
      (l.set i b).countP p + (if p a then 1 else 0) =
        l.countP p + (if p b then 1 else 0)
  | [], i, a, b => by
    intro h
    simp at h
  | x :: xs, 0, a, b => by
    intro h
    simp only [List.getElem?_cons_zero, Option.some.injEq] at h
    subst h
    simp only [List.set_cons_zero, List.countP_cons]
    omega
  | x :: xs, i + 1, a, b => by
    intro h
    simp only [List.getElem?_cons_succ] at h
    have := countP_set_eq p xs i a b h
    simp only [List.set_cons_succ, List.countP_cons]
    omega

/-- Helper for C4: popping a Ready task decrements the number of Ready
slots by exactly one. -/
theorem takeAnyReadyTask_countReady {τ : Type} (t : Tasks τ) (id : Nat)
    (c : τ) (t2 : Tasks τ) (h : t.takeAnyReadyTask = some (id, c, t2)) :
    t2.countReady + 1 = t.countReady := by
  unfold Tasks.takeAnyReadyTask at h
  split at h
  next c0 nxt hv =>
    simp only [Option.some.injEq, Prod.mk.injEq] at h
    obtain ⟨-, -, ht2⟩ := h
    subst ht2
    unfold Tasks.countReady
    have := countP_set_eq Slot.isReady t.tasks t.readyListHead
      (Slot.ready c0 nxt) Slot.running hv
    simp only [Slot.isReady, if_true, if_false] at this
    simpa using this
  next => simp at h

/-- Helper for C4: `put_back_waiting` turns a Running slot into a Waiting
slot (neither Ready), so the number of Ready slots is unchanged. -/
theorem putBackWaiting_countReady {τ : Type} (t : Tasks τ) (i : Nat)
    (c : τ) : (t.putBackWaiting i c).countReady = t.countReady := by
  unfold Tasks.putBackWaiting
  split
  next hv =>
    unfold Tasks.countReady
    have := countP_set_eq Slot.isReady t.tasks i Slot.running
      (Slot.waiting c) hv
    simp only [Slot.isReady, if_false] at this
    simpa using this
  next => rfl

/-- Helper for C4: `put_back_nothing` turns a Running slot into a Vacant
slot (neither Ready), so the number of Ready slots is unchanged. -/
theorem putBackNothing_countReady {τ : Type} (t : Tasks τ) (i : Nat) :
    (t.putBackNothing i).countReady = t.countReady := by
  unfold Tasks.putBackNothing
  split
  next hv =>
    unfold Tasks.countReady
    have := countP_set_eq Slot.isReady t.tasks i Slot.running
      (Slot.vacant t.freeListHead) hv
    simp only [Slot.isReady, if_false] at this
    simpa using this
  next => rfl

/-- Helper for C4: an arena with no Ready slot has nothing to take. -/
theorem takeAnyReadyTask_of_countReady_zero {τ : Type} (t : Tasks τ)
    (h : t.countReady = 0) : t.takeAnyReadyTask = none := by
  unfold Tasks.takeAnyReadyTask
  split
  next c0 nxt hv =>
    exfalso
    obtain ⟨hlt, hget⟩ := List.getElem?_eq_some_iff.mp hv
    have hmem : Slot.ready c0 nxt ∈ t.tasks := hget ▸ List.getElem_mem hlt
    have hpos : 0 < t.tasks.countP Slot.isReady :=
      List.countP_pos_iff.mpr ⟨_, hmem, by simp [Slot.isReady]⟩
    unfold Tasks.countReady at h
    omega
  next => rfl

/-- Helper for C4: with fuel at least the number of Ready slots, the
ready loop runs until no Ready task remains. -/
theorem runLoop_take_none {τ : Type} (pollFn : Nat → τ → PollRes τ) :
    ∀ (fuel : Nat) (t : Tasks τ) (evs : List Event),
      t.countReady ≤ fuel →
      ((runLoop pollFn fuel t evs).1).takeAnyReadyTask = none
  | 0, t, evs => fun h => by
    have h0 : t.countReady = 0 := Nat.le_zero.mp h
    simpa [runLoop] using takeAnyReadyTask_of_countReady_zero t h0
  | fuel + 1, t, evs => fun h => by
    cases htake : t.takeAnyReadyTask with
    | none =>
      simpa [runLoop, htake] using htake
    | some r =>
      obtain ⟨id, c, t2⟩ := r
      have hcount := takeAnyReadyTask_countReady t id c t2 htake
      cases hpoll : pollFn id c with
      | pending c2 =>
        simp only [runLoop, htake, hpoll]
        exact runLoop_take_none pollFn fuel _ _
          (by rw [putBackWaiting_countReady]; omega)
      | ready =>
        simp only [runLoop, htake, hpoll]
        exact runLoop_take_none pollFn fuel _ _
          (by rw [putBackNothing_countReady]; omega)

/-- Helper for C4: the ready loop never performs a blocking `wait_any`
call — the count of `waitAnyCall` events is whatever it was on entry. -/
theorem runLoop_countP_wait {τ : Type} (pollFn : Nat → τ → PollRes τ) :
    ∀ (fuel : Nat) (t : Tasks τ) (evs : List Event),
      ((runLoop pollFn fuel t evs).2).countP Event.isWait
        = evs.countP Event.isWait
  | 0, t, evs => by simp [runLoop]
  | fuel + 1, t, evs => by
    cases htake : t.takeAnyReadyTask with
    | none => simp [runLoop, htake]
    | some r =>
      obtain ⟨id, c, t2⟩ := r
      cases hpoll : pollFn id c with
      | pending c2 =>
        simp only [runLoop, htake, hpoll]
        rw [runLoop_countP_wait pollFn fuel]
        simp [List.countP_append, List.countP_cons, Event.isWait]
      | ready =>
        simp only [runLoop, htake, hpoll]
        rw [runLoop_countP_wait pollFn fuel]
        simp [List.countP_append, List.countP_cons, Event.isWait]

/-- C4: one `run_until_idle` invocation records the blocking `wait_any`
call exactly once when the reactor is non-empty and not at all when it is
empty (the reactor check gates entry into the ready loop, which itself
never blocks); with fuel covering the Ready slots of the entry arena the
loop stops exactly when no Ready task remains; and the returned number is
the final arena's live-task count. -/
theorem c4_run_until_idle_shape {τ : Type} (pollFn : Nat → τ → PollRes τ)
    (fuel : Nat) (t : Tasks τ) (w : TaskWaker) (wakeIds : List Nat)
    (hfuel : (runUntilIdleEntry t w wakeIds).countReady ≤ fuel) :
    ((runUntilIdle pollFn fuel t w wakeIds).2.2).countP Event.isWait
      = (if w.isEmpty then 0 else 1) ∧
    ((runUntilIdle pollFn fuel t w wakeIds).2.1).takeAnyReadyTask = none ∧
    (runUntilIdle pollFn fuel t w wakeIds).1
      = ((runUntilIdle pollFn fuel t w wakeIds).2.1).len := by
  refine ⟨?_, ?_, rfl⟩
  · show ((runLoop pollFn fuel (runUntilIdleEntry t w wakeIds)
      (if w.isEmpty then [] else [Event.waitAnyCall])).2).countP Event.isWait
      = (if w.isEmpty then 0 else 1)
    rw [runLoop_countP_wait]
    by_cases hE : w.isEmpty
    · simp [hE]
    · simp [hE, List.countP_cons, Event.isWait]
  · exact runLoop_take_none pollFn fuel _ _ hfuel

/-- Witness for C4: one immediately completing task, empty reactor — the
trace holds no blocking call, the loop drained the Ready list, and the
returned count is the final live count. -/
theorem c4_run_until_idle_shape_witness :
    ((runUntilIdle (fun _ (_ : Nat) => PollRes.ready) 1
      ⟨[Slot.ready 7 usizeMax], usizeMax, 0, 1⟩ TaskWaker.new
      []).2.2).countP Event.isWait = 0 ∧
    ((runUntilIdle (fun _ (_ : Nat) => PollRes.ready) 1
      ⟨[Slot.ready 7 usizeMax], usizeMax, 0, 1⟩ TaskWaker.new
      []).2.1).takeAnyReadyTask = none := by
  have h := c4_run_until_idle_shape (fun _ (_ : Nat) => PollRes.ready) 1
    ⟨[Slot.ready 7 usizeMax], usizeMax, 0, 1⟩ TaskWaker.new [] (by decide)
  refine ⟨?_, h.2.1⟩
  rw [h.1]
  rfl

/-- Helper for C6: no driver operation other than `mark_ready id` can
move slot `id` out of the Waiting state — `insert` only overwrites a
Vacant slot or appends, popping only overwrites the Ready slot it pops,
the put-back operations only overwrite Running slots (their contract),
and `mark_ready` on another TaskId only overwrites that other slot. -/
theorem driverStep_preserves_waiting {τ : Type} (t : Tasks τ) (id : Nat)
    (c : τ) (op : DriverOp τ) (hw : t.tasks[id]? = some (.waiting c))
    (hop : op.isMarkReadyOn id = false) :
    (driverStep t op).tasks[id]? = some (.waiting c) := by
  cases op with
  | insertOp c2 canAlloc =>
    simp only [driverStep]
    cases hv : t.tasks[t.freeListHead]? with
    | none =>
      cases canAlloc with
      | false =>
        rw [show t.insert c2 false = some (.error .outOfMemory) from by
          simp [Tasks.insert, hv]]
        exact hw
      | true =>
        rw [show t.insert c2 true = some (.ok ⟨t.tasks ++
          [Slot.ready c2 t.readyListHead], t.freeListHead, t.tasks.length,
          t.len + 1⟩) from by simp [Tasks.insert, hv]]
        have hlt : id < t.tasks.length := (List.getElem?_eq_some_iff.mp hw).1
        simpa [List.getElem?_append_left hlt] using hw
    | some sl =>
      cases sl with
      | waiting c3 =>
        rw [show t.insert c2 canAlloc = none from by simp [Tasks.insert, hv]]
        exact hw
      | ready c3 nxt =>
        rw [show t.insert c2 canAlloc = none from by simp [Tasks.insert, hv]]
        exact hw
      | running =>
        rw [show t.insert c2 canAlloc = none from by simp [Tasks.insert, hv]]
        exact hw
      | vacant nxt =>
        have hne : t.freeListHead ≠ id := by
          intro he
          rw [he, hw] at hv
          simp at hv
        rw [show t.insert c2 canAlloc = some (.ok ⟨t.tasks.set
          t.freeListHead (.ready c2 t.readyListHead), nxt, t.freeListHead,
          t.len + 1⟩) from by simp [Tasks.insert, hv]]
        simpa [List.getElem?_set_ne hne] using hw
  | takeOp =>
    simp only [driverStep]
    cases ht : t.takeAnyReadyTask with
    | none => exact hw
    | some r =>
      obtain ⟨i2, c2, t2⟩ := r
      unfold Tasks.takeAnyReadyTask at ht
      split at ht
      next c0 nxt hv =>
        simp only [Option.some.injEq, Prod.mk.injEq] at ht
        obtain ⟨-, -, ht2⟩ := ht
        subst ht2
        have hne : t.readyListHead ≠ id := by
          intro he
          rw [he, hw] at hv
          simp at hv
        simpa [List.getElem?_set_ne hne] using hw
      next => simp at ht
  | putWaitingOp j c2 =>
    simp only [driverStep]
    unfold Tasks.putBackWaiting
    split
    next hv =>
      have hne : j ≠ id := by
        intro he
        rw [he, hw] at hv
        simp at hv
      simpa [List.getElem?_set_ne hne] using hw
    next => exact hw
  | putNothingOp j =>
    simp only [driverStep]
    unfold Tasks.putBackNothing
    split
    next hv =>
      have hne : j ≠ id := by
        intro he
        rw [he, hw] at hv
        simp at hv
      simpa [List.getElem?_set_ne hne] using hw
    next => exact hw
  | markReadyOp j =>
    simp only [DriverOp.isMarkReadyOn] at hop
    have hne : j ≠ id := by
      intro he
      rw [he] at hop
      simp at hop
    simp only [driverStep]
    unfold Tasks.markReady
    split
    next c0 hv =>
      simpa [List.getElem?_set_ne hne] using hw
    next => exact hw

/-- Helper for C6: across any sequence of driver operations none of which
is `mark_ready id`, slot `id` stays Waiting with the same computation. -/
theorem waiting_stays_without_markReady {τ : Type} :
    ∀ (ops : List (DriverOp τ)) (t : Tasks τ) (id : Nat) (c : τ),
      t.tasks[id]? = some (.waiting c) →
      (∀ op ∈ ops, op.isMarkReadyOn id = false) →
      (driverRun t ops).tasks[id]? = some (.waiting c)
  | [], t, id, c => fun hw _ => hw
  | op :: ops, t, id, c => fun hw hall =>
    waiting_stays_without_markReady ops (driverStep t op) id c
      (driverStep_preserves_waiting t id c op hw
        (hall op (List.mem_cons_self op ops)))
      (fun o ho => hall o (List.mem_cons_of_mem op ho))

/-- Helper for C6: if slot `id` is Waiting and, after running a sequence
of driver operations, `take_any_ready_task` returns `id`, the sequence
contained a `mark_ready id` — `take_any_ready_task` only returns Ready
slots, and `mark_ready` is the only transition from Waiting back to
Ready. -/
theorem take_after_waiting_needs_markReady {τ : Type} (t : Tasks τ)
    (id : Nat) (c : τ) (ops : List (DriverOp τ))
    (hw : t.tasks[id]? = some (.waiting c))
    (htake : ((driverRun t ops).takeAnyReadyTask.map fun r => r.1)
      = some id) :
    (ops.any fun op => op.isMarkReadyOn id) = true := by
  by_contra hno
  have hall : ∀ op ∈ ops, op.isMarkReadyOn id = false := by
    intro op hop
    cases hcon : op.isMarkReadyOn id with
    | false => rfl
    | true => exact absurd (List.any_eq_true.mpr ⟨op, hop, hcon⟩) hno
  have hw2 := waiting_stays_without_markReady ops t id c hw hall
  cases hfinal : (driverRun t ops).takeAnyReadyTask with
  | none =>
    rw [hfinal] at htake
    simp at htake
  | some r =>
    rw [hfinal] at htake
    simp only [Option.map_some', Option.some.injEq] at htake
    unfold Tasks.takeAnyReadyTask at hfinal
    split at hfinal
    next c0 nxt hv =>
      simp only [Option.some.injEq] at hfinal
      have hi : (driverRun t ops).readyListHead = id := by
        rw [← hfinal] at htake
        simpa using htake
      rw [hi] at hv
      rw [hw2] at hv
      simp at hv
    next => simp at hfinal

/-- C6: a task the driver put back Waiting after it reported Pending is
never returned by `take_any_ready_task` again — across any sequence of
arena operations the driver and the waker bridge can perform — until
`mark_ready` has been invoked for its TaskId at least once since that
resume. -/
theorem c6_no_spurious_resume {τ : Type} (t0 : Tasks τ) (id : Nat) (c : τ)
    (ops : List (DriverOp τ)) (hrun : t0.tasks[id]? = some .running)
    (htake : (((driverRun (t0.putBackWaiting id c) ops).takeAnyReadyTask).map
      fun r => r.1) = some id) :
    (ops.any fun op => op.isMarkReadyOn id) = true := by
  have hlt : id < t0.tasks.length := (List.getElem?_eq_some_iff.mp hrun).1
  have hw : (t0.putBackWaiting id c).tasks[id]? = some (.waiting c) := by
    simp [Tasks.putBackWaiting, hrun, hlt]
  exact take_after_waiting_needs_markReady _ id c ops hw htake

/-- Witness for C6: a one-slot arena whose Running task is put back
Waiting; the operation sequence `[mark_ready 0]` makes the next take
return it, and indeed contains the `mark_ready`. -/
theorem c6_no_spurious_resume_witness :
    (([DriverOp.markReadyOp 0] : List (DriverOp Nat)).any
      fun op => op.isMarkReadyOn 0) = true :=
  c6_no_spurious_resume ⟨[Slot.running], usizeMax, usizeMax, 1⟩ 0 5
    [DriverOp.markReadyOp 0] (by decide) (by decide)
